import Mathlib

/-!
Verification development for the RemoteLLMconnector repository.

The Python source is shallowly embedded: dictionaries become association
lists with Python `dict` semantics (assignment replaces the value in place
when the key exists, otherwise appends; deletion removes the entry;
iteration follows insertion order), random identifiers and key material
become explicit parameters, and the asynchronous broker code becomes an
explicit state machine whose events are the frames the per-socket reader
processes while a caller is waiting.
-/

namespace RemoteLLM

/-! ## Association lists with Python dict semantics -/

/-- Lookup of the value stored under a key (first match). -/
def lookupA {α β : Type} [DecidableEq α] : List (α × β) → α → Option β
  | [], _ => none
  | (k, v) :: t, a => if k = a then some v else lookupA t a

/-- Assignment `d[k] = v`: replace in place when the key exists, else append. -/
def insertA {α β : Type} [DecidableEq α] : List (α × β) → α → β → List (α × β)
  | [], a, b => [(a, b)]
  | (k, v) :: t, a, b => if k = a then (a, b) :: t else (k, v) :: insertA t a b

/-- Deletion `del d[k]` / `d.pop(k, None)`: remove the entry with the key. -/
def eraseA {α β : Type} [DecidableEq α] : List (α × β) → α → List (α × β)
  | [], _ => []
  | (k, v) :: t, a => if k = a then t else (k, v) :: eraseA t a

/-- Membership test `k in d`. -/
def containsA {α β : Type} [DecidableEq α] (l : List (α × β)) (a : α) : Bool :=
  (lookupA l a).isSome

/-- Keys of the map, in insertion order. -/
def keysA {α β : Type} (l : List (α × β)) : List α :=
  l.map Prod.fst

section AssocLemmas

variable {α β : Type} [DecidableEq α]

@[simp] theorem lookupA_nil (a : α) : lookupA ([] : List (α × β)) a = none := rfl

@[simp] theorem lookupA_cons (k : α) (v : β) (t : List (α × β)) (a : α) :
    lookupA ((k, v) :: t) a = if k = a then some v else lookupA t a := rfl

omit [DecidableEq α] in
@[simp] theorem keysA_nil : keysA ([] : List (α × β)) = [] := rfl

omit [DecidableEq α] in
@[simp] theorem keysA_cons (k : α) (v : β) (t : List (α × β)) :
    keysA ((k, v) :: t) = k :: keysA t := rfl

@[simp] theorem lookupA_insertA_self (l : List (α × β)) (a : α) (b : β) :
    lookupA (insertA l a b) a = some b := by
  induction l with
  | nil => simp [insertA]
  | cons hd t ih =>
    obtain ⟨k, v⟩ := hd
    by_cases h : k = a <;> simp [insertA, h, ih]

theorem lookupA_insertA_ne (l : List (α × β)) (a c : α) (b : β) (h : a ≠ c) :
    lookupA (insertA l a b) c = lookupA l c := by
  induction l with
  | nil => simp [insertA, h]
  | cons hd t ih =>
    obtain ⟨k, v⟩ := hd
    by_cases hk : k = a
    · subst hk
      simp [insertA, h, Ne.symm h]
    · by_cases hc : k = c <;> simp [insertA, hk, hc, ih, Ne.symm h]

theorem lookupA_eraseA_ne (l : List (α × β)) (a c : α) (h : a ≠ c) :
    lookupA (eraseA l a) c = lookupA l c := by
  induction l with
  | nil => simp [eraseA]
  | cons hd t ih =>
    obtain ⟨k, v⟩ := hd
    by_cases hk : k = a
    · subst hk
      simp [eraseA, h, Ne.symm h]
    · by_cases hc : k = c <;> simp [eraseA, hk, hc, ih, Ne.symm h]

theorem lookupA_eq_none_of_not_mem (l : List (α × β)) (a : α) (h : a ∉ keysA l) :
    lookupA l a = none := by
  induction l with
  | nil => simp
  | cons hd t ih =>
    obtain ⟨k, v⟩ := hd
    simp only [keysA_cons, List.mem_cons] at h
    push_neg at h
    have hk : k ≠ a := fun he => h.1 he.symm
    simp [hk, ih h.2]

theorem lookupA_eraseA_self (l : List (α × β)) (a : α) (h : (keysA l).Nodup) :
    lookupA (eraseA l a) a = none := by
  induction l with
  | nil => simp [eraseA]
  | cons hd t ih =>
    obtain ⟨k, v⟩ := hd
    simp only [keysA_cons, List.nodup_cons] at h
    by_cases hk : k = a
    · subst hk
      simpa [eraseA] using lookupA_eq_none_of_not_mem t k h.1
    · simp [eraseA, hk, ih h.2]

theorem keysA_insertA_subset (l : List (α × β)) (a : α) (b : β) (c : α)
    (h : c ∈ keysA (insertA l a b)) : c ∈ keysA l ∨ c = a := by
  induction l with
  | nil =>
    simp [insertA] at h
    exact Or.inr h
  | cons hd t ih =>
    obtain ⟨k, v⟩ := hd
    by_cases hk : k = a
    · rw [show insertA ((k, v) :: t) a b = (a, b) :: t by simp [insertA, hk]] at h
      simp only [keysA_cons, List.mem_cons] at h ⊢
      subst hk
      tauto
    · rw [show insertA ((k, v) :: t) a b = (k, v) :: insertA t a b by
        simp [insertA, hk]] at h
      simp only [keysA_cons, List.mem_cons] at h ⊢
      rcases h with h | h
      · tauto
      · rcases ih h with h2 | h2 <;> tauto

theorem keysA_eraseA_subset (l : List (α × β)) (a : α) (c : α)
    (h : c ∈ keysA (eraseA l a)) : c ∈ keysA l := by
  induction l with
  | nil => simp [eraseA] at h
  | cons hd t ih =>
    obtain ⟨k, v⟩ := hd
    by_cases hk : k = a
    · rw [show eraseA ((k, v) :: t) a = t by simp [eraseA, hk]] at h
      simp only [keysA_cons, List.mem_cons]
      tauto
    · rw [show eraseA ((k, v) :: t) a = (k, v) :: eraseA t a by simp [eraseA, hk]] at h
      simp only [keysA_cons, List.mem_cons] at h ⊢
      rcases h with h | h
      · tauto
      · exact Or.inr (ih h)

theorem keysA_nodup_insertA (l : List (α × β)) (a : α) (b : β)
    (h : (keysA l).Nodup) : (keysA (insertA l a b)).Nodup := by
  induction l with
  | nil => simp [insertA]
  | cons hd t ih =>
    obtain ⟨k, v⟩ := hd
    simp only [keysA_cons, List.nodup_cons] at h
    by_cases hk : k = a
    · simp only [insertA, if_pos hk, keysA_cons, List.nodup_cons]
      subst hk
      exact ⟨h.1, h.2⟩
    · simp only [insertA, if_neg hk, keysA_cons, List.nodup_cons]
      refine ⟨fun hm => ?_, ih h.2⟩
      rcases keysA_insertA_subset t a b k hm with h2 | h2
      · exact h.1 h2
      · exact hk h2

theorem keysA_nodup_eraseA (l : List (α × β)) (a : α)
    (h : (keysA l).Nodup) : (keysA (eraseA l a)).Nodup := by
  induction l with
  | nil => simp [eraseA]
  | cons hd t ih =>
    obtain ⟨k, v⟩ := hd
    simp only [keysA_cons, List.nodup_cons] at h
    by_cases hk : k = a
    · simp only [eraseA, if_pos hk]
      exact h.2
    · simp only [eraseA, if_neg hk, keysA_cons, List.nodup_cons]
      exact ⟨fun hm => h.1 (keysA_eraseA_subset t a k hm), ih h.2⟩

theorem lookupA_append_left (l₁ l₂ : List (α × β)) (a : α) (v : β)
    (h : lookupA l₁ a = some v) : lookupA (l₁ ++ l₂) a = some v := by
  induction l₁ with
  | nil => simp at h
  | cons hd t ih =>
    obtain ⟨k, w⟩ := hd
    by_cases hk : k = a
    · simp_all
    · simp only [lookupA_cons, if_neg hk] at h
      simpa [hk] using ih h

theorem lookupA_append_right (l₁ l₂ : List (α × β)) (a : α)
    (h : lookupA l₁ a = none) : lookupA (l₁ ++ l₂) a = lookupA l₂ a := by
  induction l₁ with
  | nil => simp
  | cons hd t ih =>
    obtain ⟨k, w⟩ := hd
    by_cases hk : k = a
    · simp [hk] at h
    · simp only [lookupA_cons, if_neg hk] at h
      simpa [hk] using ih h

theorem not_mem_keysA_iff_lookupA (l : List (α × β)) (a : α) :
    a ∉ keysA l ↔ lookupA l a = none := by
  constructor
  · exact lookupA_eq_none_of_not_mem l a
  · intro h
    induction l with
    | nil => simp
    | cons hd t ih =>
      obtain ⟨k, v⟩ := hd
      by_cases hk : k = a
      · simp [hk] at h
      · simp only [lookupA_cons, if_neg hk] at h
        simp only [keysA_cons, List.mem_cons]
        push_neg
        exact ⟨fun hc => hk hc.symm, ih h⟩

theorem lookupA_map_snd {γ : Type} (f : β → γ) (l : List (α × β)) (a : α) :
    lookupA (l.map fun kv => (kv.1, f kv.2)) a = (lookupA l a).map f := by
  induction l with
  | nil => simp
  | cons hd t ih =>
    obtain ⟨k, v⟩ := hd
    by_cases hk : k = a <;> simp [hk, ih]

end AssocLemmas

/-! ## Protocol messages (src/remotellm/shared/protocol.py)

`RelayMessage` is a pydantic model `{type, id, payload}` where the payload
is a dict validated against the per-type payload schema. The payload is
embedded as a tagged union whose variants carry exactly the fields of the
corresponding pydantic payload classes used by the claims.
-/

/-- MessageType enum from protocol.py. -/
inductive MessageType
  | AUTH | RESPONSE | STREAM_CHUNK | STREAM_END | ERROR | PING
  | AUTH_OK | AUTH_FAIL | REQUEST | PONG | CANCEL | PENDING | APPROVED | REVOKED
deriving DecidableEq, Repr

/-- RequestPayload from protocol.py: fields of the REQUEST message. -/
structure RequestPayload where
  method : String
  path : String
  headers : List (String × String)
  body : String
  llm_api_key : Option String
deriving DecidableEq, Repr

/-- Payload variants, as validated by the pydantic payload models. -/
inductive Payload
  | empty
  | request (p : RequestPayload)
  | response (status : Nat) (headers : List (String × String)) (body : String)
  | streamChunk (chunk : String) (done : Bool)
  | streamEnd
  | error (status : Nat) (error : String) (code : String)
deriving DecidableEq, Repr

/-- RelayMessage (alias TunnelMessage) from protocol.py. -/
structure RelayMessage where
  type : MessageType
  id : String
  payload : Payload
deriving DecidableEq, Repr

/-- Helper create_request_message from protocol.py. -/
def create_request_message (correlation_id method path : String)
    (headers : List (String × String)) (body : String)
    (llm_api_key : Option String) : RelayMessage :=
  { type := .REQUEST, id := correlation_id,
    payload := .request ⟨method, path, headers, body, llm_api_key⟩ }

/-- Helper create_response_message from protocol.py. -/
def create_response_message (correlation_id : String) (status : Nat)
    (headers : List (String × String)) (body : String) : RelayMessage :=
  { type := .RESPONSE, id := correlation_id, payload := .response status headers body }

/-- Helper create_error_message from protocol.py. -/
def create_error_message (correlation_id : String) (status : Nat)
    (error code : String) : RelayMessage :=
  { type := .ERROR, id := correlation_id, payload := .error status error code }

/-- Helper create_stream_chunk_message from protocol.py. -/
def create_stream_chunk_message (correlation_id chunk : String)
    (done : Bool) : RelayMessage :=
  { type := .STREAM_CHUNK, id := correlation_id, payload := .streamChunk chunk done }

/-- Helper create_stream_end_message from protocol.py. -/
def create_stream_end_message (correlation_id : String) : RelayMessage :=
  { type := .STREAM_END, id := correlation_id, payload := .streamEnd }

/-! ## Model router (src/remotellm/broker/router.py) -/

/-- RouteInfo dataclass from router.py. -/
structure RouteInfo where
  connector_id : String
  llm_api_key : Option String
deriving DecidableEq, Repr

/-- ConnectorInfo dataclass from router.py. -/
structure ConnectorInfo where
  connector_id : String
  models : List String
  llm_api_key : Option String
deriving DecidableEq, Repr

/-- ModelRouter state: `_routes` and `_connectors` dicts from router.py. -/
structure ModelRouter where
  routes : List (String × RouteInfo)
  connectors : List (String × ConnectorInfo)
deriving DecidableEq, Repr

/-- Initial router state from `ModelRouter.__init__`. -/
def ModelRouter.init : ModelRouter := ⟨[], []⟩

/-- Inner loop of `build_routes`: `for model in info.models: if model not in
self._routes: self._routes[model] = RouteInfo(connector_id, llm_api_key)`. -/
def addConnectorModels (connector_id : String) (llm_api_key : Option String) :
    List (String × RouteInfo) → List String → List (String × RouteInfo)
  | routes, [] => routes
  | routes, m :: ms =>
    addConnectorModels connector_id llm_api_key
      (if containsA routes m then routes
       else routes ++ [(m, ⟨connector_id, llm_api_key⟩)]) ms

/-- Outer loop of `build_routes`: iterate `_connectors` in insertion order. -/
def buildRoutesFrom : List (String × ConnectorInfo) → List (String × RouteInfo) →
    List (String × RouteInfo)
  | [], routes => routes
  | (connector_id, info) :: rest, routes =>
    buildRoutesFrom rest (addConnectorModels connector_id info.llm_api_key routes info.models)

/-- `ModelRouter.build_routes`: clear `_routes` and rebuild from `_connectors`. -/
def ModelRouter.build_routes (r : ModelRouter) : ModelRouter :=
  { r with routes := buildRoutesFrom r.connectors [] }

/-- `ModelRouter.get_route`. -/
def ModelRouter.get_route (r : ModelRouter) (model : String) :
    Option (String × Option String) :=
  match lookupA r.routes model with
  | none => none
  | some route => some (route.connector_id, route.llm_api_key)

/-- `ModelRouter.on_connector_registered`: replace the connector entry and rebuild. -/
def ModelRouter.on_connector_registered (r : ModelRouter) (connector_id : String)
    (models : List String) (llm_api_key : Option String) : ModelRouter :=
  ModelRouter.build_routes
    { r with connectors :=
        insertA r.connectors connector_id ⟨connector_id, models, llm_api_key⟩ }

/-- `ModelRouter.on_connector_disconnected`: pop the entry (if present) and rebuild. -/
def ModelRouter.on_connector_disconnected (r : ModelRouter) (connector_id : String) :
    ModelRouter :=
  if containsA r.connectors connector_id then
    ModelRouter.build_routes { r with connectors := eraseA r.connectors connector_id }
  else r

/-- Router call in a call sequence. -/
inductive RouterOp
  | reg (connector_id : String) (models : List String) (llm_api_key : Option String)
  | disc (connector_id : String)
deriving DecidableEq, Repr

/-- Apply one router call. -/
def applyRouterOp (r : ModelRouter) : RouterOp → ModelRouter
  | .reg cid models key => r.on_connector_registered cid models key
  | .disc cid => r.on_connector_disconnected cid

/-- Apply a sequence of router calls. -/
def applyRouterOps (r : ModelRouter) (ops : List RouterOp) : ModelRouter :=
  ops.foldl applyRouterOp r

/-- Earliest-registered currently-present connector advertising a model,
read directly off the `_connectors` dict in insertion order. -/
def firstAdvertiser (connectors : List (String × ConnectorInfo)) (model : String) :
    Option RouteInfo :=
  match connectors with
  | [] => none
  | (cid, info) :: rest =>
    if model ∈ info.models then some ⟨cid, info.llm_api_key⟩
    else firstAdvertiser rest model

theorem lookupA_addConnectorModels (cid : String) (key : Option String) (m : String) :
    ∀ (ms : List String) (routes : List (String × RouteInfo)),
      lookupA (addConnectorModels cid key routes ms) m =
        match lookupA routes m with
        | some v => some v
        | none => if m ∈ ms then some ⟨cid, key⟩ else none := by
  intro ms
  induction ms with
  | nil =>
    intro routes
    cases h : lookupA routes m <;> simp [addConnectorModels, h]
  | cons mm rest ih =>
    intro routes
    simp only [addConnectorModels]
    by_cases hc : containsA routes mm
    · rw [if_pos hc, ih routes]
      cases h : lookupA routes m with
      | some v => simp
      | none =>
        by_cases hm : m = mm
        · subst hm
          simp [containsA, h] at hc
        · simp [List.mem_cons, hm]
    · rw [if_neg hc, ih]
      cases h : lookupA routes m with
      | some v => rw [lookupA_append_left routes _ m v h]
      | none =>
        rw [lookupA_append_right routes _ m h]
        by_cases hm : m = mm
        · subst hm
          simp [lookupA]
        · have hmm : mm ≠ m := fun he => hm he.symm
          simp [lookupA, hmm, List.mem_cons, hm]

theorem lookupA_buildRoutesFrom (m : String) :
    ∀ (cs : List (String × ConnectorInfo)) (routes : List (String × RouteInfo)),
      lookupA (buildRoutesFrom cs routes) m =
        match lookupA routes m with
        | some v => some v
        | none => firstAdvertiser cs m := by
  intro cs
  induction cs with
  | nil =>
    intro routes
    cases h : lookupA routes m <;> simp [buildRoutesFrom, firstAdvertiser, h]
  | cons hd rest ih =>
    intro routes
    obtain ⟨cid, info⟩ := hd
    simp only [buildRoutesFrom]
    rw [ih, lookupA_addConnectorModels]
    cases h : lookupA routes m with
    | some v => simp
    | none =>
      by_cases hm : m ∈ info.models <;> simp [firstAdvertiser, hm]

/-- A route produced by the rebuild refers to a present connector key. -/
theorem firstAdvertiser_mem_keys (cs : List (String × ConnectorInfo)) (m : String)
    (ri : RouteInfo) (h : firstAdvertiser cs m = some ri) :
    ri.connector_id ∈ keysA cs := by
  induction cs with
  | nil => simp [firstAdvertiser] at h
  | cons hd rest ih =>
    obtain ⟨cid, info⟩ := hd
    simp only [firstAdvertiser] at h
    by_cases hm : m ∈ info.models
    · rw [if_pos hm] at h
      injection h with h
      subst h
      simp
    · rw [if_neg hm] at h
      simp [ih h]

/-- Invariant of every reachable router state: the route table equals a full
rebuild from the connector dict, and the connector dict has unique keys. -/
def RouterInv (r : ModelRouter) : Prop :=
  r.routes = buildRoutesFrom r.connectors [] ∧ (keysA r.connectors).Nodup

theorem routerInv_init : RouterInv ModelRouter.init := by
  constructor <;> simp [ModelRouter.init, buildRoutesFrom]

theorem routerInv_applyRouterOp (r : ModelRouter) (op : RouterOp)
    (h : RouterInv r) : RouterInv (applyRouterOp r op) := by
  cases op with
  | reg cid models key =>
    refine ⟨rfl, ?_⟩
    exact keysA_nodup_insertA _ _ _ h.2
  | disc cid =>
    simp only [applyRouterOp, ModelRouter.on_connector_disconnected]
    by_cases hc : containsA r.connectors cid
    · rw [if_pos hc]
      exact ⟨rfl, keysA_nodup_eraseA _ _ h.2⟩
    · rw [if_neg hc]
      exact h

theorem routerInv_applyRouterOps (r : ModelRouter) (ops : List RouterOp)
    (h : RouterInv r) : RouterInv (applyRouterOps r ops) := by
  induction ops generalizing r with
  | nil => exact h
  | cons op rest ih =>
    exact ih _ (routerInv_applyRouterOp r op h)

/-- The route lookup of any invariant-satisfying state is the earliest-registered
present advertiser. -/
theorem get_route_eq_firstAdvertiser (r : ModelRouter) (m : String) (h : RouterInv r) :
    r.get_route m =
      (firstAdvertiser r.connectors m).map fun ri => (ri.connector_id, ri.llm_api_key) := by
  unfold ModelRouter.get_route
  rw [h.1, lookupA_buildRoutesFrom]
  cases hf : firstAdvertiser r.connectors m <;> simp [hf]

/-- Absence of a connector key is preserved by every call other than a
re-registration of that connector. -/
theorem not_mem_keys_applyRouterOp (r : ModelRouter) (op : RouterOp) (c : String)
    (hop : ∀ ms k, op ≠ RouterOp.reg c ms k) (h : c ∉ keysA r.connectors) :
    c ∉ keysA (applyRouterOp r op).connectors := by
  cases op with
  | reg cid models key =>
    intro hmem
    simp only [applyRouterOp, ModelRouter.on_connector_registered,
      ModelRouter.build_routes] at hmem
    rcases keysA_insertA_subset _ _ _ _ hmem with h2 | h2
    · exact h h2
    · exact hop models key (by rw [h2])
  | disc cid =>
    intro hmem
    simp only [applyRouterOp, ModelRouter.on_connector_disconnected] at hmem
    by_cases hc : containsA r.connectors cid
    · rw [if_pos hc] at hmem
      exact h (keysA_eraseA_subset _ _ _ hmem)
    · rw [if_neg hc] at hmem
      exact h hmem

theorem not_mem_keys_applyRouterOps (r : ModelRouter) (ops : List RouterOp) (c : String)
    (hops : ∀ op ∈ ops, ∀ ms k, op ≠ RouterOp.reg c ms k)
    (h : c ∉ keysA r.connectors) :
    c ∉ keysA (applyRouterOps r ops).connectors := by
  induction ops generalizing r with
  | nil => exact h
  | cons op rest ih =>
    exact ih _ (fun o ho => hops o (List.mem_cons_of_mem _ ho))
      (not_mem_keys_applyRouterOp r op c (hops op (List.mem_cons_self _ _)) h)

/-- After the disconnect call the connector key is gone from the dict. -/
theorem not_mem_keys_after_disconnect (r : ModelRouter) (c : String) (h : RouterInv r) :
    c ∉ keysA (r.on_connector_disconnected c).connectors := by
  unfold ModelRouter.on_connector_disconnected
  by_cases hc : containsA r.connectors c
  · rw [if_pos hc]
    simp only [ModelRouter.build_routes]
    rw [not_mem_keysA_iff_lookupA]
    exact lookupA_eraseA_self _ _ h.2
  · rw [if_neg hc]
    rw [not_mem_keysA_iff_lookupA]
    simp only [containsA, Option.isSome] at hc
    cases hl : lookupA r.connectors c with
    | none => rfl
    | some v => rw [hl] at hc; simp at hc

/-- A present connector advertising the model forces the rebuild to route it. -/
theorem firstAdvertiser_isSome_of_mem (cs : List (String × ConnectorInfo))
    (m c2 : String) (info2 : ConnectorInfo) (hmem : (c2, info2) ∈ cs)
    (hm : m ∈ info2.models) : ∃ ri, firstAdvertiser cs m = some ri := by
  induction cs with
  | nil => simp at hmem
  | cons hd rest ih =>
    obtain ⟨cid, info⟩ := hd
    by_cases hadv : m ∈ info.models
    · exact ⟨⟨cid, info.llm_api_key⟩, by simp [firstAdvertiser, hadv]⟩
    · rcases List.mem_cons.mp hmem with he | he
      · injection he with h1 h2
        subst h2
        exact absurd hm hadv
      · rcases ih he with ⟨ri, hri⟩
        exact ⟨ri, by simp [firstAdvertiser, hadv, hri]⟩

/-- C2: for every sequence of `on_connector_registered` and
`on_connector_disconnected` calls starting from a fresh `ModelRouter` and every
model `m`: (1) `get_route m` returns the earliest-registered currently-present
connector advertising `m` (first-registered wins, read off the connector dict
in insertion order); (2) after `on_connector_disconnected c` and any further
calls that never re-register `c`, `get_route m` never returns a route whose
connector id is `c`; (3) after `on_connector_disconnected c`, if any remaining
connector advertises `m`, then `get_route m` routes `m` to some connector other
than `c` (a previously shadowed advertiser takes over). -/
theorem C2_router_first_registered_wins (ops : List RouterOp) (m : String) :
    ((applyRouterOps ModelRouter.init ops).get_route m =
      (firstAdvertiser (applyRouterOps ModelRouter.init ops).connectors m).map
        (fun ri => (ri.connector_id, ri.llm_api_key))) ∧
    (∀ (c : String) (ops2 : List RouterOp) (p : String × Option String),
      (∀ op ∈ ops2, ∀ ms k, op ≠ RouterOp.reg c ms k) →
      (applyRouterOps
        ((applyRouterOps ModelRouter.init ops).on_connector_disconnected c)
        ops2).get_route m = some p →
      p.1 ≠ c) ∧
    (∀ (c c2 : String) (info2 : ConnectorInfo),
      (c2, info2) ∈
        ((applyRouterOps ModelRouter.init ops).on_connector_disconnected c).connectors →
      m ∈ info2.models →
      ∃ q, ((applyRouterOps ModelRouter.init ops).on_connector_disconnected c).get_route m
        = some q ∧ q.1 ≠ c) := by
  have hinv : RouterInv (applyRouterOps ModelRouter.init ops) :=
    routerInv_applyRouterOps _ _ routerInv_init
  refine ⟨get_route_eq_firstAdvertiser _ m hinv, ?_, ?_⟩
  · intro c ops2 p hops2 hroute
    have hinv2 : RouterInv
        (applyRouterOps
          ((applyRouterOps ModelRouter.init ops).on_connector_disconnected c) ops2) :=
      routerInv_applyRouterOps _ _ (routerInv_applyRouterOp _ (.disc c) hinv)
    have hnot : c ∉ keysA
        (applyRouterOps
          ((applyRouterOps ModelRouter.init ops).on_connector_disconnected c)
          ops2).connectors :=
      not_mem_keys_applyRouterOps _ _ _ hops2 (not_mem_keys_after_disconnect _ _ hinv)
    rw [get_route_eq_firstAdvertiser _ m hinv2] at hroute
    cases hf : firstAdvertiser
        (applyRouterOps
          ((applyRouterOps ModelRouter.init ops).on_connector_disconnected c)
          ops2).connectors m with
    | none => rw [hf] at hroute; simp at hroute
    | some ri =>
      rw [hf] at hroute
      have hp : p = (ri.connector_id, ri.llm_api_key) := by
        simpa using hroute.symm
      have hmem := firstAdvertiser_mem_keys _ _ _ hf
      intro hcontra
      rw [hp] at hcontra
      simp only at hcontra
      rw [hcontra] at hmem
      exact hnot hmem
  · intro c c2 info2 hmem hm
    have hinv2 : RouterInv ((applyRouterOps ModelRouter.init ops).on_connector_disconnected c) :=
      routerInv_applyRouterOp _ (.disc c) hinv
    have hnot : c ∉ keysA
        ((applyRouterOps ModelRouter.init ops).on_connector_disconnected c).connectors :=
      not_mem_keys_after_disconnect _ _ hinv
    rcases firstAdvertiser_isSome_of_mem _ m c2 info2 hmem hm with ⟨ri, hri⟩
    refine ⟨(ri.connector_id, ri.llm_api_key), ?_, ?_⟩
    · rw [get_route_eq_firstAdvertiser _ m hinv2, hri]
      rfl
    · intro hcontra
      simp only at hcontra
      have hk := firstAdvertiser_mem_keys _ _ _ hri
      rw [hcontra] at hk
      exact hnot hk

/-- Witness for C2 at the S7 scenario: A then B advertise m1; A is routed, and
after disconnecting A, B takes over (so the routed connector is not A). -/
theorem C2_router_first_registered_wins_witness :
    ((applyRouterOps ModelRouter.init
        [RouterOp.reg "A" ["m1"] none, RouterOp.reg "B" ["m1"] none]).get_route "m1" =
      some ("A", none)) ∧
    (((applyRouterOps ModelRouter.init
        [RouterOp.reg "A" ["m1"] none,
         RouterOp.reg "B" ["m1"] none]).on_connector_disconnected "A").get_route "m1" =
      some ("B", none)) ∧
    ("B", (none : Option String)).1 ≠ "A" := by
  have h := C2_router_first_registered_wins
      [RouterOp.reg "A" ["m1"] none, RouterOp.reg "B" ["m1"] none] "m1"
  refine ⟨by decide, by decide, ?_⟩
  exact h.2.1 "A" [] ("B", none) (by intro op hop; simp at hop) (by decide)

/-! ## Connector store (src/remotellm/broker/connectors.py)

Python keeps `_connectors : {connector_id → Connector}` and
`_api_key_index : {api_key → Connector}` where the index stores a reference
to the same record object. The embedding stores the record's connector id in
the index and resolves through `_connectors`, which observes the same values
as Python's aliasing whenever every indexed record is present in
`_connectors` under its id — which every store operation maintains.
Randomness (`uuid.uuid4().hex[:8]`, `secrets.token_hex(16)`) is passed in as
explicit parameters. `datetime.utcnow()` is passed as an abstract clock value.
File persistence (`_save`) does not change the in-memory maps and is omitted.
-/

/-- ConnectorStatus enum. -/
inductive ConnectorStatus
  | pending | approved | revoked
deriving DecidableEq, Repr

/-- Connector dataclass from connectors.py. -/
structure Connector where
  connector_id : String
  api_key : Option String
  name : Option String
  models : List String
  status : ConnectorStatus
  created_at : Nat
  last_used : Option Nat
  last_connected : Option Nat
deriving DecidableEq, Repr

/-- ConnectorStore in-memory state. -/
structure ConnectorStore where
  connectors : List (String × Connector)
  api_key_index : List (String × String)
deriving DecidableEq, Repr

/-- Lowercase hex digit for a value below 16 (as produced by `bytes.hex()`). -/
def hexDigitChar (n : Nat) : Char :=
  "0123456789abcdef".data.getD n '?'

/-- Two lowercase hex digits of one byte. -/
def byteHexChars (b : Nat) : List Char :=
  [hexDigitChar (b / 16), hexDigitChar (b % 16)]

/-- `secrets.token_hex` / `bytes.hex()` over the drawn random bytes. -/
def tokenHexChars : List Nat → List Char
  | [] => []
  | b :: bs => byteHexChars b ++ tokenHexChars bs

/-- The hex string of the drawn random bytes. -/
def tokenHex (bs : List Nat) : String :=
  ⟨tokenHexChars bs⟩

/-- `ConnectorStore.get_by_id`. -/
def ConnectorStore.get_by_id (s : ConnectorStore) (connector_id : String) :
    Option Connector :=
  lookupA s.connectors connector_id

/-- `ConnectorStore.get_by_api_key` (index resolved through `_connectors`). -/
def ConnectorStore.get_by_api_key (s : ConnectorStore) (api_key : String) :
    Option Connector :=
  match lookupA s.api_key_index api_key with
  | none => none
  | some cid => lookupA s.connectors cid

/-- `ConnectorStore.create_pending`: allocate `conn-` + 8 random hex chars,
status PENDING, no key; `idHex` is the drawn `uuid.uuid4().hex[:8]`. -/
def ConnectorStore.create_pending (s : ConnectorStore) (idHex : String)
    (models : List String) (name : Option String) (now : Nat) :
    ConnectorStore × Connector :=
  let connector_id := "conn-" ++ idHex
  let connector : Connector :=
    { connector_id := connector_id, api_key := none, name := name, models := models,
      status := .pending, created_at := now, last_used := none,
      last_connected := some now }
  ({ s with connectors := insertA s.connectors connector_id connector }, connector)

/-- `ConnectorStore.approve`: only from PENDING; generate `ck-` +
`token_hex(16)` from the drawn random bytes, set APPROVED, update both maps. -/
def ConnectorStore.approve (s : ConnectorStore) (connector_id : String)
    (randBytes : List Nat) : ConnectorStore × Option String :=
  match lookupA s.connectors connector_id with
  | none => (s, none)
  | some connector =>
    if connector.status ≠ .pending then (s, none)
    else
      let api_key := "ck-" ++ tokenHex randBytes
      let connector2 := { connector with api_key := some api_key, status := .approved }
      ({ connectors := insertA s.connectors connector_id connector2,
         api_key_index := insertA s.api_key_index api_key connector_id },
       some api_key)

/-- `ConnectorStore.revoke`: if the record exists, drop its key from the key
index (when the key is non-empty and indexed — Python truthiness of
`connector.api_key`) and set status REVOKED; returns whether a record existed. -/
def ConnectorStore.revoke (s : ConnectorStore) (connector_id : String) :
    ConnectorStore × Bool :=
  match lookupA s.connectors connector_id with
  | none => (s, false)
  | some connector =>
    let idx :=
      match connector.api_key with
      | some k => if k ≠ "" ∧ containsA s.api_key_index k then eraseA s.api_key_index k
                  else s.api_key_index
      | none => s.api_key_index
    ({ connectors := insertA s.connectors connector_id
         { connector with status := .revoked },
       api_key_index := idx }, true)

/-- `ConnectorStore.validate_api_key`: the indexed record, only if APPROVED. -/
def ConnectorStore.validate_api_key (s : ConnectorStore) (api_key : String) :
    Option Connector :=
  match s.get_by_api_key api_key with
  | none => none
  | some connector =>
    if connector.status ≠ .approved then none else some connector

theorem tokenHexChars_length (bs : List Nat) :
    (tokenHexChars bs).length = 2 * bs.length := by
  induction bs with
  | nil => rfl
  | cons b t ih => simp [tokenHexChars, byteHexChars, ih]; omega

theorem hexDigitChar_mem (n : Nat) (h : n < 16) :
    hexDigitChar n ∈ "0123456789abcdef".data := by
  unfold hexDigitChar
  rw [List.getD_eq_getElem _ _ (by simpa using h)]
  exact List.getElem_mem _

theorem mem_tokenHexChars (bs : List Nat) (hb : ∀ b ∈ bs, b < 256) :
    ∀ ch ∈ tokenHexChars bs, ch ∈ "0123456789abcdef".data := by
  induction bs with
  | nil => intro ch h; simp [tokenHexChars] at h
  | cons b t ih =>
    intro ch h
    simp only [tokenHexChars, byteHexChars, List.cons_append, List.nil_append,
      List.mem_cons] at h
    have hb1 : b < 256 := hb b (List.mem_cons_self _ _)
    rcases h with h | h | h
    · subst h
      exact hexDigitChar_mem _ (by omega)
    · subst h
      exact hexDigitChar_mem _ (by omega)
    · exact ih (fun x hx => hb x (List.mem_cons_of_mem _ hx)) ch h

theorem ck_prefix_ne_empty (x : String) : "ck-" ++ x ≠ "" := by
  intro h
  have hd : ("ck-" ++ x).data = "".data := by rw [h]
  simp [String.data_append] at hd

/-- C6: `approve(connector_id)` returns an API key iff the record exists with
status PENDING; on success the key is `ck-` followed by 32 lowercase hex
characters, the record becomes APPROVED holding the key, and the key maps to
that record in the api-key index; in every other case it returns nil and the
store is unchanged. The 16 drawn random bytes of `secrets.token_hex(16)` are
the explicit `bytes` parameter. -/
theorem C6_approve_pending_only (s : ConnectorStore) (cid : String)
    (bytes : List Nat) (hlen : bytes.length = 16) (hb : ∀ b ∈ bytes, b < 256) :
    ((s.approve cid bytes).2.isSome ↔
      ∃ c, lookupA s.connectors cid = some c ∧ c.status = .pending) ∧
    (∀ k c, (s.approve cid bytes).2 = some k → lookupA s.connectors cid = some c →
      k = "ck-" ++ tokenHex bytes ∧
      (tokenHex bytes).data.length = 32 ∧
      (∀ ch ∈ (tokenHex bytes).data, ch ∈ "0123456789abcdef".data) ∧
      lookupA (s.approve cid bytes).1.connectors cid =
        some { c with status := .approved, api_key := some k } ∧
      lookupA (s.approve cid bytes).1.api_key_index k = some cid) ∧
    ((s.approve cid bytes).2 = none → (s.approve cid bytes).1 = s) := by
  unfold ConnectorStore.approve
  cases hl : lookupA s.connectors cid with
  | none =>
    refine ⟨by simp, ?_, by simp⟩
    intro k c hk
    simp at hk
  | some c0 =>
    by_cases hst : c0.status = .pending
    · have hne : ¬ c0.status ≠ ConnectorStatus.pending := by simp [hst]
      refine ⟨by simp [hne, hst], ?_, by simp [hne]⟩
      intro k c hk hc
      injection hc with hc
      subst hc
      simp only [hne, if_false] at hk
      injection hk with hk
      subst hk
      refine ⟨rfl, ?_, ?_, ?_, ?_⟩
      · show (tokenHexChars bytes).length = 32
        rw [tokenHexChars_length, hlen]
      · exact mem_tokenHexChars bytes hb
      · simp [hne]
      · simp [hne]
    · have hne : c0.status ≠ ConnectorStatus.pending := hst
      refine ⟨?_, ?_, by simp [hne]⟩
      · constructor
        · intro h
          simp [hne] at h
        · rintro ⟨c, hc, hcs⟩
          injection hc with hc
          subst hc
          exact absurd hcs hst
      · intro k c hk
        simp [hne] at hk

/-- Witness for C6: approving a concrete pending record with 16 zero bytes
yields a key. -/
theorem C6_approve_pending_only_witness :
    (List.replicate 16 0).length = 16 ∧
    (∀ b ∈ List.replicate 16 0, b < 256) ∧
    ((ConnectorStore.approve
        ⟨[("conn-a", ⟨"conn-a", none, none, ["m1"], .pending, 0, none, none⟩)], []⟩
        "conn-a" (List.replicate 16 0)).2.isSome) := by
  refine ⟨by decide, by decide, ?_⟩
  have h := C6_approve_pending_only
      ⟨[("conn-a", ⟨"conn-a", none, none, ["m1"], .pending, 0, none, none⟩)], []⟩
      "conn-a" (List.replicate 16 0) (by decide) (by decide)
  exact h.1.mpr ⟨⟨"conn-a", none, none, ["m1"], .pending, 0, none, none⟩, by decide, rfl⟩

/-- C5: `create_pending` then `approve` on the returned record's id yields a
key `k` under which `validate_api_key` returns the same record, now APPROVED
and holding `k`; after a subsequent `revoke` of that id, `validate_api_key k`
returns nil. The api-key index is assumed to hold at most one entry per key,
as a Python dict does. -/
theorem C5_create_approve_validate_revoke (s : ConnectorStore) (idHex : String)
    (models : List String) (name : Option String) (now : Nat) (bytes : List Nat)
    (hwf : (keysA s.api_key_index).Nodup) :
    ∃ k,
      (((s.create_pending idHex models name now).1).approve
          ((s.create_pending idHex models name now).2).connector_id bytes).2 = some k ∧
      ((((s.create_pending idHex models name now).1).approve
          ((s.create_pending idHex models name now).2).connector_id bytes).1).validate_api_key k =
        some { (s.create_pending idHex models name now).2 with
               status := .approved, api_key := some k } ∧
      (((((s.create_pending idHex models name now).1).approve
          ((s.create_pending idHex models name now).2).connector_id bytes).1).revoke
          ((s.create_pending idHex models name now).2).connector_id).1.validate_api_key k =
        none := by
  set cid := "conn-" ++ idHex with hcid
  set r : Connector :=
    { connector_id := cid, api_key := none, name := name, models := models,
      status := .pending, created_at := now, last_used := none,
      last_connected := some now } with hr
  have hcp : s.create_pending idHex models name now =
      ({ s with connectors := insertA s.connectors cid r }, r) := rfl
  rw [hcp]
  set k := "ck-" ++ tokenHex bytes with hk
  set r2 : Connector := { r with api_key := some k, status := .approved } with hr2
  have happ :
      ConnectorStore.approve { s with connectors := insertA s.connectors cid r }
        r.connector_id bytes =
      ({ connectors := insertA (insertA s.connectors cid r) cid r2,
         api_key_index := insertA s.api_key_index k cid }, some k) := by
    unfold ConnectorStore.approve
    have : r.connector_id = cid := rfl
    rw [this]
    simp only [lookupA_insertA_self]
    rfl
  rw [happ]
  refine ⟨k, rfl, ?_, ?_⟩
  · unfold ConnectorStore.validate_api_key ConnectorStore.get_by_api_key
    simp only [lookupA_insertA_self]
    rfl
  · have hrev :
        ConnectorStore.revoke
          { connectors := insertA (insertA s.connectors cid r) cid r2,
            api_key_index := insertA s.api_key_index k cid } r.connector_id =
        ({ connectors := insertA (insertA (insertA s.connectors cid r) cid r2) cid
             { r2 with status := .revoked },
           api_key_index := eraseA (insertA s.api_key_index k cid) k }, true) := by
      unfold ConnectorStore.revoke
      have hcc : r.connector_id = cid := rfl
      rw [hcc]
      simp only [lookupA_insertA_self]
      have hkne : k ≠ "" := ck_prefix_ne_empty (tokenHex bytes)
      have hcon : containsA (insertA s.api_key_index k cid) k = true := by
        simp [containsA]
      rw [if_pos ⟨hkne, hcon⟩]
    rw [hrev]
    unfold ConnectorStore.validate_api_key ConnectorStore.get_by_api_key
    have hnone : lookupA (eraseA (insertA s.api_key_index k cid) k) k = none :=
      lookupA_eraseA_self _ _ (keysA_nodup_insertA _ _ _ hwf)
    simp only [hnone]

/-- Witness for C5 with a concrete empty store and zero random bytes. -/
theorem C5_create_approve_validate_revoke_witness :
    (keysA (ConnectorStore.mk [] []).api_key_index).Nodup ∧
    ∃ k,
      ((((ConnectorStore.mk [] []).create_pending "ab" ["m1"] none 0).1).approve
          ((((ConnectorStore.mk [] []).create_pending "ab" ["m1"] none 0)).2).connector_id
          (List.replicate 16 0)).2 = some k := by
  refine ⟨by decide, ?_⟩
  rcases C5_create_approve_validate_revoke (ConnectorStore.mk [] []) "ab" ["m1"] none 0
    (List.replicate 16 0) (by decide) with ⟨k, hk, _, _⟩
  exact ⟨k, hk⟩

/-- C8 counterexample: `revoke` on a record whose status is already REVOKED
still returns true, although the claim says true is returned exactly when the
status is APPROVED or PENDING. -/
theorem C8_revoke_counterexample :
    (ConnectorStore.revoke
      ⟨[("conn-x", ⟨"conn-x", some "ck-old", none, [], .revoked, 0, none, none⟩)], []⟩
      "conn-x").2 = true ∧
    (lookupA
      (ConnectorStore.mk
        [("conn-x", ⟨"conn-x", some "ck-old", none, [], .revoked, 0, none, none⟩)] []).connectors
      "conn-x").any
        (fun c => c.status ≠ .approved ∧ c.status ≠ .pending) = true := by
  decide

/-- C8 (amended): `revoke(connector_id)` returns true exactly when a record
with that id exists, regardless of its current status (the code never checks
the status); when it returns true the record remains with status REVOKED and
its non-empty key (if any) is absent from the api-key index; when it returns
false the store is unchanged. -/
theorem C8_revoke_any_existing (s : ConnectorStore) (cid : String)
    (hwf : (keysA s.api_key_index).Nodup) :
    ((s.revoke cid).2 = true ↔ (lookupA s.connectors cid).isSome) ∧
    (∀ c, lookupA s.connectors cid = some c →
      lookupA (s.revoke cid).1.connectors cid = some { c with status := .revoked } ∧
      (∀ k, c.api_key = some k → k ≠ "" →
        lookupA (s.revoke cid).1.api_key_index k = none)) ∧
    ((s.revoke cid).2 = false → (s.revoke cid).1 = s) := by
  cases hl : lookupA s.connectors cid with
  | none =>
    have hrev : s.revoke cid = (s, false) := by
      unfold ConnectorStore.revoke
      rw [hl]
    rw [hrev]
    exact ⟨by simp [hl], by intro c hc; simp at hc, by intro h; rfl⟩
  | some c0 =>
    have hrev1 : (s.revoke cid).2 = true := by
      unfold ConnectorStore.revoke
      rw [hl]
    have hrevc : (s.revoke cid).1.connectors =
        insertA s.connectors cid { c0 with status := .revoked } := by
      unfold ConnectorStore.revoke
      rw [hl]
    refine ⟨by simp [hrev1, hl], ?_, by intro h; rw [hrev1] at h; simp at h⟩
    intro c hc
    injection hc with hc
    subst hc
    refine ⟨by rw [hrevc]; simp, ?_⟩
    intro k hkey hkne
    have hidx : (s.revoke cid).1.api_key_index =
        if k ≠ "" ∧ containsA s.api_key_index k = true then eraseA s.api_key_index k
        else s.api_key_index := by
      unfold ConnectorStore.revoke
      rw [hl]
      show (match c0.api_key with
            | some k2 =>
              if k2 ≠ "" ∧ containsA s.api_key_index k2 = true then
                eraseA s.api_key_index k2
              else s.api_key_index
            | none => s.api_key_index) = _
      rw [hkey]
    rw [hidx]
    by_cases hcon : containsA s.api_key_index k = true
    · rw [if_pos ⟨hkne, hcon⟩]
      exact lookupA_eraseA_self _ _ hwf
    · rw [if_neg (fun h2 => hcon h2.2)]
      simp only [containsA] at hcon
      cases hlk : lookupA s.api_key_index k with
      | none => rfl
      | some v => rw [hlk] at hcon; simp at hcon

/-- Witness for C8's amended theorem on a concrete store holding one approved
record: revoke returns true, the record turns REVOKED, the key leaves the
index. -/
theorem C8_revoke_any_existing_witness :
    (keysA (ConnectorStore.mk
      [("conn-y", ⟨"conn-y", some "ck-k1", none, [], .approved, 0, none, none⟩)]
      [("ck-k1", "conn-y")]).api_key_index).Nodup ∧
    ((ConnectorStore.mk
      [("conn-y", ⟨"conn-y", some "ck-k1", none, [], .approved, 0, none, none⟩)]
      [("ck-k1", "conn-y")]).revoke "conn-y").2 = true := by
  refine ⟨by decide, ?_⟩
  have h := C8_revoke_any_existing
    (ConnectorStore.mk
      [("conn-y", ⟨"conn-y", some "ck-k1", none, [], .approved, 0, none, none⟩)]
      [("ck-k1", "conn-y")]) "conn-y" (by decide)
  exact h.1.mpr (by decide)

/-! ## Broker tunnel server (src/remotellm/broker/tunnel_server.py)

Per-registration `pending_requests` maps a correlation id to either a
single-slot `asyncio.Future` or an `asyncio.Queue`. The asynchronous code is
embedded as a state machine: `handle_message` is the pure state transition of
`TunnelServer._handle_message`; `send_request` runs its synchronous prefix
(lookup, future allocation, frame write) and then replays the events the
per-socket reader processes while the caller awaits — ordinary incoming
frames, or the socket close that triggers the disconnect cleanup of
`_handle_connection`. Socket writes are returned as a list of sent frames.
-/

/-- Completion state of a single-slot `asyncio.Future`. -/
inductive FutureState
  | waiting
  | completed (result : RelayMessage)
  | failedDisconnect
deriving DecidableEq, Repr

/-- One `pending_requests` slot: future (non-streaming) or queue (streaming).
A queue element `none` is the end-of-stream sentinel `None`. -/
inductive PendingSlot
  | future (fs : FutureState)
  | queue (q : List (Option RelayMessage))
deriving DecidableEq, Repr

/-- ConnectorRegistration dataclass (websocket handle elided; writes to it are
modelled as emitted frames). -/
structure ConnectorRegistration where
  connector_id : String
  models : List String
  llm_api_key : Option String
  pending_requests : List (String × PendingSlot)
deriving DecidableEq, Repr

/-- PendingConnection dataclass (websocket handle elided). -/
structure PendingConnection where
  connector_id : String
  models : List String
  name : Option String
  auth_correlation_id : String
deriving DecidableEq, Repr

/-- TunnelServer mutable state: `_connectors` and `_pending_connections`. -/
structure ServerState where
  connectors : List (String × ConnectorRegistration)
  pending_connections : List (String × PendingConnection)
deriving DecidableEq, Repr

/-- Store an updated registration back under its connector id. -/
def setRegistration (st : ServerState) (cid : String)
    (reg : ConnectorRegistration) : ServerState :=
  { st with connectors := insertA st.connectors cid reg }

/-- `TunnelServer._handle_message` acting on the `pending_requests` dict:
PONG is ignored; an unmatched correlation id is dropped; RESPONSE/ERROR
complete a not-yet-done future; a queue receives the message, and on
STREAM_END/ERROR also the sentinel, after which the entry is removed. -/
def handlePendingRequests (p : List (String × PendingSlot)) (msg : RelayMessage) :
    List (String × PendingSlot) :=
  if msg.type = .PONG then p
  else
    match lookupA p msg.id with
    | none => p
    | some (.future fs) =>
      if (msg.type = .RESPONSE ∨ msg.type = .ERROR) ∧ fs = .waiting then
        insertA p msg.id (.future (.completed msg))
      else p
    | some (.queue q) =>
      if msg.type = .STREAM_END ∨ msg.type = .ERROR then
        eraseA p msg.id
      else insertA p msg.id (.queue (q ++ [some msg]))

/-- `TunnelServer._handle_message`: no-op when the connector is unregistered. -/
def handle_message (st : ServerState) (cid : String) (msg : RelayMessage) :
    ServerState :=
  match lookupA st.connectors cid with
  | none => st
  | some reg =>
    setRegistration st cid
      { reg with pending_requests := handlePendingRequests reg.pending_requests msg }

/-- Disconnect drain of one slot, as the still-referenced future/queue objects
are observed by their waiters: a not-yet-done future receives the
ConnectionError, a queue receives the end-of-stream sentinel. -/
def drainSlot : PendingSlot → PendingSlot
  | .future .waiting => .future .failedDisconnect
  | .future fs => .future fs
  | .queue q => .queue (q ++ [none])

/-- Cleanup block of `TunnelServer._handle_connection` on socket close: drop
any pending-admission entry, drain every pending slot, delete the
registration. The second component is the drained `pending_requests` as seen
by the waiters holding references into it. -/
def disconnectCleanup (st : ServerState) (cid : String) :
    ServerState × List (String × PendingSlot) :=
  match lookupA st.connectors cid with
  | none =>
    ({ st with pending_connections := eraseA st.pending_connections cid }, [])
  | some reg =>
    ({ connectors := eraseA st.connectors cid,
       pending_connections := eraseA st.pending_connections cid },
     reg.pending_requests.map fun kv => (kv.1, drainSlot kv.2))

/-- An event observed by the per-socket reader while a caller awaits. -/
inductive WaitEvent
  | msg (m : RelayMessage)
  | disconnect
deriving DecidableEq, Repr

/-- Outcome of `TunnelServer.send_request`. -/
inductive SendOutcome
  | keyError (st : ServerState)
  | timedOut (st : ServerState)
  | disconnected (st : ServerState)
  | ok (st : ServerState) (resp : RelayMessage)
deriving DecidableEq, Repr

/-- The `finally` clause of `send_request`: `pending_requests.pop(id, None)`. -/
def popPending (st : ServerState) (cid rid : String) : ServerState :=
  match lookupA st.connectors cid with
  | none => st
  | some reg =>
    setRegistration st cid { reg with pending_requests := eraseA reg.pending_requests rid }

/-- Await loop of `send_request`: replay reader events until the future at the
correlation id completes (return it, popping the entry), the socket closes
(ConnectionError from the drained future), or the events run out
(`asyncio.TimeoutError`, entry popped in `finally`). -/
def awaitResponse (st : ServerState) (cid rid : String) :
    List WaitEvent → SendOutcome
  | [] => .timedOut (popPending st cid rid)
  | .disconnect :: _ => .disconnected (disconnectCleanup st cid).1
  | .msg m :: rest =>
    match lookupA (handle_message st cid m).connectors cid with
    | some reg =>
      match lookupA reg.pending_requests rid with
      | some (.future (.completed r)) =>
        .ok (popPending (handle_message st cid m) cid rid) r
      | _ => awaitResponse (handle_message st cid m) cid rid rest
    | none => awaitResponse (handle_message st cid m) cid rid rest

/-- `TunnelServer.send_request`: KeyError when the connector id has no live
registration (before any mutation or write); otherwise allocate a waiting
future at `pending_requests[message.id]`, write the frame, and await. The
second component lists the frames written to the socket. -/
def send_request (st : ServerState) (cid : String) (message : RelayMessage)
    (events : List WaitEvent) : SendOutcome × List RelayMessage :=
  match lookupA st.connectors cid with
  | none => (.keyError st, [])
  | some reg =>
    (awaitResponse
      (setRegistration st cid
        { reg with pending_requests :=
            insertA reg.pending_requests message.id (.future .waiting) })
      cid message.id events, [message])

/-- `TunnelServer.send_request_streaming`: KeyError when the connector id has
no live registration; otherwise allocate an empty queue at
`pending_requests[message.id]` and write the frame. -/
def send_request_streaming (st : ServerState) (cid : String)
    (message : RelayMessage) : Option ServerState × List RelayMessage :=
  match lookupA st.connectors cid with
  | none => (none, [])
  | some reg =>
    (some (setRegistration st cid
      { reg with pending_requests :=
          insertA reg.pending_requests message.id (.queue []) }), [message])

/-- C10: with no live registration for the connector id, `send_request` and
`send_request_streaming` raise KeyError before creating any pending entry or
writing any frame: the returned state is the untouched input state (both the
registration map and the pending-admission map), and the list of written
frames is empty (`send_request_streaming` reports no post-state, mirroring
the exception propagating before any mutation). -/
theorem C10_send_request_unknown_connector (st : ServerState) (cid : String)
    (message : RelayMessage) (events : List WaitEvent)
    (h : lookupA st.connectors cid = none) :
    send_request st cid message events = (.keyError st, []) ∧
    send_request_streaming st cid message = (none, []) := by
  unfold send_request send_request_streaming
  rw [h]
  exact ⟨rfl, rfl⟩

/-- Witness for C10 on an empty server state. -/
theorem C10_send_request_unknown_connector_witness :
    lookupA (ServerState.mk [] []).connectors "c9" = none ∧
    send_request (ServerState.mk [] [])
      "c9" (create_request_message "r1" "POST" "/v1/chat/completions" [] "" none) [] =
      (.keyError (ServerState.mk [] []), []) := by
  refine ⟨rfl, ?_⟩
  exact (C10_send_request_unknown_connector (ServerState.mk [] []) "c9"
    (create_request_message "r1" "POST" "/v1/chat/completions" [] "" none) [] rfl).1

/-- Invariant of the `pending_requests` dict at the awaited correlation id:
unique keys, and if the slot is a future then it is still waiting or was
completed by a RESPONSE/ERROR frame carrying that very correlation id. -/
def SlotInv (rid : String) (p : List (String × PendingSlot)) : Prop :=
  (keysA p).Nodup ∧
  ∀ fs, lookupA p rid = some (.future fs) →
    fs = .waiting ∨
    ∃ r, fs = .completed r ∧ (r.type = .RESPONSE ∨ r.type = .ERROR) ∧ r.id = rid

/-- Server-state form of the invariant at one connector id. -/
def StInv (cid rid : String) (st : ServerState) : Prop :=
  ∀ reg, lookupA st.connectors cid = some reg → SlotInv rid reg.pending_requests

/-- The per-message transition preserves the slot invariant. -/
theorem slotInv_handlePendingRequests (rid : String) (p : List (String × PendingSlot))
    (m : RelayMessage) (h : SlotInv rid p) :
    SlotInv rid (handlePendingRequests p m) := by
  unfold handlePendingRequests
  by_cases hp : m.type = .PONG
  · rw [if_pos hp]
    exact h
  · rw [if_neg hp]
    cases hl : lookupA p m.id with
    | none => exact h
    | some slot =>
      cases slot with
      | future fs =>
        show SlotInv rid
          (if (m.type = MessageType.RESPONSE ∨ m.type = MessageType.ERROR) ∧
              fs = FutureState.waiting then
            insertA p m.id (PendingSlot.future (FutureState.completed m))
          else p)
        by_cases hc : (m.type = .RESPONSE ∨ m.type = .ERROR) ∧ fs = .waiting
        · rw [if_pos hc]
          refine ⟨keysA_nodup_insertA _ _ _ h.1, ?_⟩
          intro fs2 hfs2
          by_cases hid : m.id = rid
          · rw [hid, lookupA_insertA_self] at hfs2
            injection hfs2 with hfs2
            injection hfs2 with hfs2
            exact Or.inr ⟨m, hfs2.symm, hc.1, hid⟩
          · rw [lookupA_insertA_ne _ _ _ _ hid] at hfs2
            exact h.2 fs2 hfs2
        · rw [if_neg hc]
          exact h
      | queue q =>
        show SlotInv rid
          (if m.type = MessageType.STREAM_END ∨ m.type = MessageType.ERROR then
            eraseA p m.id
          else insertA p m.id (PendingSlot.queue (q ++ [some m])))
        by_cases hc : m.type = .STREAM_END ∨ m.type = .ERROR
        · rw [if_pos hc]
          refine ⟨keysA_nodup_eraseA _ _ h.1, ?_⟩
          intro fs2 hfs2
          by_cases hid : m.id = rid
          · rw [hid] at hfs2
            rw [lookupA_eraseA_self _ _ (by rw [← hid] at *; exact h.1)] at hfs2
            exact absurd hfs2 (by simp)
          · rw [lookupA_eraseA_ne _ _ _ hid] at hfs2
            exact h.2 fs2 hfs2
        · rw [if_neg hc]
          refine ⟨keysA_nodup_insertA _ _ _ h.1, ?_⟩
          intro fs2 hfs2
          by_cases hid : m.id = rid
          · rw [hid, lookupA_insertA_self] at hfs2
            exact absurd hfs2 (by simp)
          · rw [lookupA_insertA_ne _ _ _ _ hid] at hfs2
            exact h.2 fs2 hfs2

/-- The reader transition preserves the server-state invariant. -/
theorem stInv_handle_message (cid rid : String) (st : ServerState)
    (m : RelayMessage) (h : StInv cid rid st) :
    StInv cid rid (handle_message st cid m) := by
  unfold handle_message
  cases hl : lookupA st.connectors cid with
  | none => exact h
  | some reg =>
    intro reg2 hreg2
    unfold setRegistration at hreg2
    simp only [lookupA_insertA_self] at hreg2
    injection hreg2 with hreg2
    subst hreg2
    exact slotInv_handlePendingRequests rid reg.pending_requests m (h reg hl)

/-- The awaited correlation id is absent from the registration (if any) after
the `finally` pop. -/
def PendingGone (cid rid : String) (st : ServerState) : Prop :=
  ∀ reg, lookupA st.connectors cid = some reg →
    lookupA reg.pending_requests rid = none

theorem pendingGone_popPending (cid rid : String) (st : ServerState)
    (h : StInv cid rid st) : PendingGone cid rid (popPending st cid rid) := by
  unfold popPending
  cases hl : lookupA st.connectors cid with
  | none =>
    intro reg hreg
    rw [hl] at hreg
    simp at hreg
  | some reg =>
    intro reg2 hreg2
    unfold setRegistration at hreg2
    simp only [lookupA_insertA_self] at hreg2
    injection hreg2 with hreg2
    subst hreg2
    exact lookupA_eraseA_self _ _ (h reg hl).1

/-- Soundness of the await loop: a successful completion carries a
RESPONSE/ERROR frame with the awaited correlation id, and both success and
timeout leave the correlation id absent from the registration's pending map. -/
theorem awaitResponse_spec (cid rid : String) :
    ∀ (events : List WaitEvent) (st : ServerState), StInv cid rid st →
    (∀ st2 r, awaitResponse st cid rid events = .ok st2 r →
      (r.type = .RESPONSE ∨ r.type = .ERROR) ∧ r.id = rid ∧
      PendingGone cid rid st2) ∧
    (∀ st2, awaitResponse st cid rid events = .timedOut st2 →
      PendingGone cid rid st2) := by
  intro events
  induction events with
  | nil =>
    intro st hinv
    constructor
    · intro st2 r hok
      simp [awaitResponse] at hok
    · intro st2 hto
      simp only [awaitResponse, SendOutcome.timedOut.injEq] at hto
      rw [← hto]
      exact pendingGone_popPending cid rid st hinv
  | cons ev rest ih =>
    intro st hinv
    cases ev with
    | disconnect =>
      constructor
      · intro st2 r hok
        simp [awaitResponse] at hok
      · intro st2 hto
        simp [awaitResponse] at hto
    | msg m =>
      have hinv2 : StInv cid rid (handle_message st cid m) :=
        stInv_handle_message cid rid st m hinv
      cases hcl : lookupA (handle_message st cid m).connectors cid with
      | none =>
        have hred : awaitResponse st cid rid (WaitEvent.msg m :: rest) =
            awaitResponse (handle_message st cid m) cid rid rest := by
          simp only [awaitResponse, hcl]
        rw [hred]
        exact ih (handle_message st cid m) hinv2
      | some reg =>
        cases hpl : lookupA reg.pending_requests rid with
        | none =>
          have hred : awaitResponse st cid rid (WaitEvent.msg m :: rest) =
              awaitResponse (handle_message st cid m) cid rid rest := by
            simp only [awaitResponse, hcl, hpl]
          rw [hred]
          exact ih (handle_message st cid m) hinv2
        | some slot =>
          cases slot with
          | queue q =>
            have hred : awaitResponse st cid rid (WaitEvent.msg m :: rest) =
                awaitResponse (handle_message st cid m) cid rid rest := by
              simp only [awaitResponse, hcl, hpl]
            rw [hred]
            exact ih (handle_message st cid m) hinv2
          | future fs =>
            cases fs with
            | waiting =>
              have hred : awaitResponse st cid rid (WaitEvent.msg m :: rest) =
                  awaitResponse (handle_message st cid m) cid rid rest := by
                simp only [awaitResponse, hcl, hpl]
              rw [hred]
              exact ih (handle_message st cid m) hinv2
            | failedDisconnect =>
              have hred : awaitResponse st cid rid (WaitEvent.msg m :: rest) =
                  awaitResponse (handle_message st cid m) cid rid rest := by
                simp only [awaitResponse, hcl, hpl]
              rw [hred]
              exact ih (handle_message st cid m) hinv2
            | completed r0 =>
              have hred : awaitResponse st cid rid (WaitEvent.msg m :: rest) =
                  .ok (popPending (handle_message st cid m) cid rid) r0 := by
                simp only [awaitResponse, hcl, hpl]
              rw [hred]
              constructor
              · intro st2 r hok
                injection hok with h1 h2
                subst h1
                subst h2
                have hslot := (hinv2 reg hcl).2 (.completed r0) hpl
                rcases hslot with hw | ⟨r1, hr1, hty, hid⟩
                · exact absurd hw (by simp)
                · injection hr1 with hr1
                  subst hr1
                  exact ⟨hty, hid, pendingGone_popPending cid rid _ hinv2⟩
              · intro st2 hto
                simp at hto

/-- C1: whenever `send_request` completes successfully, the returned envelope
is a RESPONSE or ERROR frame whose correlation id equals the id of the
outbound REQUEST envelope; and after `send_request` returns, by success or by
timeout, the registration's `pending_requests` map no longer contains that
correlation id. The hypothesis states that the registration's pending map has
unique keys, as a Python dict does. -/
theorem C1_send_request_correlation (st : ServerState) (cid : String)
    (message : RelayMessage) (events : List WaitEvent)
    (hwf : ∀ reg, lookupA st.connectors cid = some reg →
      (keysA reg.pending_requests).Nodup) :
    (∀ st2 r, (send_request st cid message events).1 = .ok st2 r →
      (r.type = .RESPONSE ∨ r.type = .ERROR) ∧ r.id = message.id ∧
      ∀ reg, lookupA st2.connectors cid = some reg →
        lookupA reg.pending_requests message.id = none) ∧
    (∀ st2, (send_request st cid message events).1 = .timedOut st2 →
      ∀ reg, lookupA st2.connectors cid = some reg →
        lookupA reg.pending_requests message.id = none) := by
  unfold send_request
  cases hl : lookupA st.connectors cid with
  | none =>
    constructor
    · intro st2 r hok
      simp at hok
    · intro st2 hto
      simp at hto
  | some reg =>
    have hinv : StInv cid message.id
        (setRegistration st cid
          { reg with pending_requests :=
              insertA reg.pending_requests message.id (.future .waiting) }) := by
      intro reg2 hreg2
      unfold setRegistration at hreg2
      simp only [lookupA_insertA_self] at hreg2
      injection hreg2 with hreg2
      subst hreg2
      refine ⟨keysA_nodup_insertA _ _ _ (hwf reg hl), ?_⟩
      intro fs hfs
      rw [lookupA_insertA_self] at hfs
      injection hfs with hfs
      injection hfs with hfs
      exact Or.inl hfs.symm
    exact awaitResponse_spec cid message.id events _ hinv

/-- Witness for C1: one registered connector, one request answered by a
RESPONSE frame with the same correlation id. -/
theorem C1_send_request_correlation_witness :
    ((create_response_message "r1" 200 [] "e30=").type = MessageType.RESPONSE ∨
      (create_response_message "r1" 200 [] "e30=").type = MessageType.ERROR) ∧
    (create_response_message "r1" 200 [] "e30=").id =
      (create_request_message "r1" "POST" "/v1/chat/completions" [] "" none).id := by
  have h := C1_send_request_correlation
    (ServerState.mk [("c1", ⟨"c1", ["m1"], none, []⟩)] []) "c1"
    (create_request_message "r1" "POST" "/v1/chat/completions" [] "" none)
    [WaitEvent.msg (create_response_message "r1" 200 [] "e30=")]
    (by intro reg hreg
        simp only [lookupA_cons, if_pos rfl] at hreg
        injection hreg with hreg
        subst hreg
        decide)
  have hres := h.1 (ServerState.mk [("c1", ⟨"c1", ["m1"], none, []⟩)] [])
    (create_response_message "r1" 200 [] "e30=") (by decide)
  exact ⟨hres.1, hres.2.1⟩

/-! ## Broker HTTP edge (src/remotellm/broker/api.py)

`_handle_chat_completions` is modelled from the point where user
authentication has already succeeded (or is disabled): body parsing, the
missing-model / unknown-model / dead-connector checks in source order, and
the construction of the REQUEST envelope. The JSON body parse is abstracted
into its observable result: parse failure (any exception swallowed by the
bare `except`), or the extracted `model` value and `stream` flag.
-/

/-- Base64 alphabet (RFC 4648, as `base64.b64encode` uses). -/
def b64Char (n : Nat) : Char :=
  "ABCDEFGHIJKLMNOPQRSTUVWXYZabcdefghijklmnopqrstuvwxyz0123456789+/".data.getD n '='

/-- Base64 encoding of a byte sequence, three bytes per group with `=`
padding. -/
def base64Chars : List Nat → List Char
  | [] => []
  | [b1] => [b64Char (b1 / 4), b64Char (b1 % 4 * 16), '=', '=']
  | [b1, b2] => [b64Char (b1 / 4), b64Char (b1 % 4 * 16 + b2 / 16),
                 b64Char (b2 % 16 * 4), '=']
  | b1 :: b2 :: b3 :: rest =>
    b64Char (b1 / 4) :: b64Char (b1 % 4 * 16 + b2 / 16) ::
    b64Char (b2 % 16 * 4 + b3 / 64) :: b64Char (b3 % 64) :: base64Chars rest

/-- `base64.b64encode(body).decode("ascii")`. -/
def base64Encode (bs : List Nat) : String :=
  ⟨base64Chars bs⟩

/-- The incoming aiohttp request, as far as `_handle_chat_completions` reads
it: method, path, headers, the parsed mimetype `request.content_type`, and
the raw body bytes. -/
structure HttpRequest where
  method : String
  path : String
  headers : List (String × String)
  content_type : Option String
  body : List Nat
deriving DecidableEq, Repr

/-- Observable result of `json.loads(body)` followed by
`request_json.get("stream", False)` and `request_json.get("model")`: any
exception leaves the defaults `stream=False`, `model=None`. -/
inductive BodyParse
  | failure
  | parsed (model : Option String) (stream : Bool)
deriving DecidableEq, Repr

/-- The `model` value after the try/except block. -/
def BodyParse.modelOf : BodyParse → Option String
  | .failure => none
  | .parsed m _ => m

/-- The `stream` value after the try/except block. -/
def BodyParse.streamOf : BodyParse → Bool
  | .failure => false
  | .parsed _ s => s

/-- A response produced by `create_error_response(status, message, type,
code)` or by the success path of `_handle_non_streaming_response`. -/
inductive HttpReply
  | errorReply (status : Nat) (message : String) (errorType : String)
      (code : Option String)
  | success (status : Nat) (contentType : String) (bodyB64 : String)
      (extraHeaders : List (String × String))
deriving DecidableEq, Repr

/-- Decision of `_handle_chat_completions` after auth: an immediate error
reply, or a REQUEST envelope forwarded to a connector. -/
inductive ChatDecision
  | reply (r : HttpReply)
  | forward (connector_id : String) (msg : RelayMessage) (streaming : Bool)
deriving DecidableEq, Repr

/-- Python `request.content_type or "application/json"`. -/
def contentTypeOrDefault : Option String → String
  | none => "application/json"
  | some ct => if ct = "" then "application/json" else ct

/-- Lines 128-203 of api.py: extract `model`/`stream`; `if not model` → 400
missing_model; no route → 404 model_not_found; route's connector not in the
live registration map → 503 connector_unavailable; otherwise build the
REQUEST envelope (headers are only the content type) and forward. -/
def handle_chat_completions (req : HttpRequest) (pb : BodyParse)
    (correlation_id : String) (router : ModelRouter) (server : ServerState) :
    ChatDecision :=
  if pb.modelOf = none ∨ pb.modelOf = some "" then
    .reply (.errorReply 400 "Missing 'model' field in request"
      "invalid_request_error" (some "missing_model"))
  else
    match router.get_route (pb.modelOf.getD "") with
    | none =>
      .reply (.errorReply 404 ("Model '" ++ pb.modelOf.getD "" ++ "' not found")
        "invalid_request_error" (some "model_not_found"))
    | some (connector_id, llm_api_key) =>
      match lookupA server.connectors connector_id with
      | none =>
        .reply (.errorReply 503
          ("No active connector for model '" ++ pb.modelOf.getD "" ++ "'")
          "service_unavailable" (some "connector_unavailable"))
      | some _ =>
        .forward connector_id
          (create_request_message correlation_id req.method req.path
            [("content-type", contentTypeOrDefault req.content_type)]
            (base64Encode req.body) llm_api_key)
          pb.streamOf

/-- Lines 229-277 of api.py (`_handle_non_streaming_response`): translate the
awaited `send_request` outcome. A KeyError is not caught there and propagates
(`none`); TimeoutError → 504 timeout; ConnectionError → 502
connector_unavailable; an ERROR envelope → its payload status/code (defaults
500/"unknown" when the fields are absent); otherwise an HTTP reply carrying
the payload status, content type and base64 body, plus a passthrough
`x-request-id` header. -/
def handle_non_streaming_response (outcome : SendOutcome) : Option HttpReply :=
  match outcome with
  | .keyError _ => none
  | .timedOut _ =>
    some (.errorReply 504 "Request timeout" "timeout" (some "timeout"))
  | .disconnected _ =>
    some (.errorReply 502 "Connector unavailable" "bad_gateway"
      (some "connector_unavailable"))
  | .ok _ resp =>
    if resp.type = .ERROR then
      match resp.payload with
      | .error status err code => some (.errorReply status err code (some code))
      | _ => some (.errorReply 500 "Unknown error" "unknown" (some "unknown"))
    else
      match resp.payload with
      | .response status headers body =>
        some (.success status
          ((lookupA headers "content-type").getD "application/json") body
          (match lookupA headers "x-request-id" with
           | some v => [("x-request-id", v)]
           | none => []))
      | _ => some (.success 200 "application/json" "" [])

/-- C4: with user auth passed or disabled, the chat-completions handler
answers 400 `missing_model` when the body does not parse or yields no model
or an empty model; 404 `model_not_found` when a model is present but has no
route; 503 `connector_unavailable` when the route's connector id has no live
registration — in that source order; and a REQUEST envelope is forwarded only
when every one of those checks has passed, so none is sent in the error
cases. -/
theorem C4_chat_completions_error_mapping (req : HttpRequest) (pb : BodyParse)
    (correlation_id : String) (router : ModelRouter) (server : ServerState) :
    ((pb.modelOf = none ∨ pb.modelOf = some "") →
      handle_chat_completions req pb correlation_id router server =
        .reply (.errorReply 400 "Missing 'model' field in request"
          "invalid_request_error" (some "missing_model"))) ∧
    (∀ m, pb.modelOf = some m → m ≠ "" → router.get_route m = none →
      handle_chat_completions req pb correlation_id router server =
        .reply (.errorReply 404 ("Model '" ++ m ++ "' not found")
          "invalid_request_error" (some "model_not_found"))) ∧
    (∀ m cid key, pb.modelOf = some m → m ≠ "" →
      router.get_route m = some (cid, key) →
      lookupA server.connectors cid = none →
      handle_chat_completions req pb correlation_id router server =
        .reply (.errorReply 503 ("No active connector for model '" ++ m ++ "'")
          "service_unavailable" (some "connector_unavailable"))) ∧
    (∀ cid msg strm,
      handle_chat_completions req pb correlation_id router server =
        .forward cid msg strm →
      ∃ m key, pb.modelOf = some m ∧ m ≠ "" ∧
        router.get_route m = some (cid, key) ∧
        (lookupA server.connectors cid).isSome) := by
  refine ⟨?_, ?_, ?_, ?_⟩
  · intro hm
    unfold handle_chat_completions
    rw [if_pos hm]
  · intro m hm hne hroute
    unfold handle_chat_completions
    have hcond : ¬ (pb.modelOf = none ∨ pb.modelOf = some "") := by
      rintro (h | h)
      · rw [hm] at h; exact Option.noConfusion h
      · rw [hm] at h
        injection h with h
        exact hne h
    rw [if_neg hcond]
    have hg : pb.modelOf.getD "" = m := by rw [hm]; rfl
    simp only [hg, hroute]
  · intro m cid key hm hne hroute hconn
    unfold handle_chat_completions
    have hcond : ¬ (pb.modelOf = none ∨ pb.modelOf = some "") := by
      rintro (h | h)
      · rw [hm] at h; exact Option.noConfusion h
      · rw [hm] at h
        injection h with h
        exact hne h
    rw [if_neg hcond]
    have hg : pb.modelOf.getD "" = m := by rw [hm]; rfl
    simp only [hg, hroute, hconn]
  · intro cid msg strm hfwd
    unfold handle_chat_completions at hfwd
    by_cases hcond : pb.modelOf = none ∨ pb.modelOf = some ""
    · rw [if_pos hcond] at hfwd
      exact absurd hfwd (by simp)
    · rw [if_neg hcond] at hfwd
      cases hm : pb.modelOf with
      | none => exact absurd (Or.inl hm) hcond
      | some m =>
        have hne : m ≠ "" := fun he => hcond (Or.inr (by rw [hm, he]))
        have hg : pb.modelOf.getD "" = m := by rw [hm]; rfl
        rw [hg] at hfwd
        cases hroute : router.get_route m with
        | none =>
          simp only [hroute] at hfwd
          exact absurd hfwd (by simp)
        | some route =>
          obtain ⟨cid2, key2⟩ := route
          simp only [hroute] at hfwd
          cases hconn : lookupA server.connectors cid2 with
          | none =>
            simp only [hconn] at hfwd
            exact absurd hfwd (by simp)
          | some reg =>
            simp only [hconn] at hfwd
            injection hfwd with h1 h2 h3
            subst h1
            exact ⟨m, key2, rfl, hne, hroute, by rw [hconn]; rfl⟩

/-- Witness for C4: a parse failure yields the 400 missing_model reply. -/
theorem C4_chat_completions_error_mapping_witness :
    handle_chat_completions
      ⟨"POST", "/v1/chat/completions", [], some "application/json", []⟩
      BodyParse.failure "req-w" ModelRouter.init (ServerState.mk [] []) =
      .reply (.errorReply 400 "Missing 'model' field in request"
        "invalid_request_error" (some "missing_model")) :=
  (C4_chat_completions_error_mapping
    ⟨"POST", "/v1/chat/completions", [], some "application/json", []⟩
    BodyParse.failure "req-w" ModelRouter.init (ServerState.mk [] [])).1
    (Or.inl rfl)

/-- Headers as C7 describes them: the incoming request's headers with host,
connection and authorization removed, all other headers passed through. -/
def specPassthroughHeaders (hs : List (String × String)) :
    List (String × String) :=
  hs.filter fun p => ¬ (p.1 = "host" ∨ p.1 = "connection" ∨ p.1 = "authorization")

/-- C7 counterexample: on a routed request carrying an extra `x-custom`
header, the code forwards only a content-type header, not the passthrough
minus {host, connection, authorization} that the claim states. -/
theorem C7_request_headers_counterexample :
    handle_chat_completions
      ⟨"POST", "/v1/chat/completions",
        [("content-type", "application/json"), ("x-custom", "1")],
        some "application/json", []⟩
      (BodyParse.parsed (some "m1") false) "req-1"
      ⟨[("m1", ⟨"c1", none⟩)], [("c1", ⟨"c1", ["m1"], none⟩)]⟩
      (ServerState.mk [("c1", ⟨"c1", ["m1"], none, []⟩)] []) =
      .forward "c1"
        (create_request_message "req-1" "POST" "/v1/chat/completions"
          [("content-type", "application/json")] "" none) false ∧
    [("content-type", "application/json")] ≠
      specPassthroughHeaders
        [("content-type", "application/json"), ("x-custom", "1")] := by
  decide

/-- C7 (amended): every REQUEST envelope forwarded by the chat-completions
handler carries the incoming request's method and path, the base64 encoding
of the raw request body, the upstream API key of the resolved route, and a
headers dict consisting solely of one content-type entry holding the incoming
request's content type (application/json when absent) — the remaining
incoming headers are not passed through. -/
theorem C7_request_envelope_fields (req : HttpRequest) (pb : BodyParse)
    (correlation_id : String) (router : ModelRouter) (server : ServerState)
    (cid : String) (msg : RelayMessage) (strm : Bool)
    (h : handle_chat_completions req pb correlation_id router server =
      .forward cid msg strm) :
    msg.type = .REQUEST ∧ msg.id = correlation_id ∧
    ∃ p, msg.payload = .request p ∧
      p.method = req.method ∧ p.path = req.path ∧
      p.headers = [("content-type", contentTypeOrDefault req.content_type)] ∧
      p.body = base64Encode req.body ∧
      ∃ m, pb.modelOf = some m ∧ router.get_route m = some (cid, p.llm_api_key) := by
  unfold handle_chat_completions at h
  by_cases hcond : pb.modelOf = none ∨ pb.modelOf = some ""
  · rw [if_pos hcond] at h
    exact absurd h (by simp)
  · rw [if_neg hcond] at h
    cases hm : pb.modelOf with
    | none => exact absurd (Or.inl hm) hcond
    | some m =>
      have hg : pb.modelOf.getD "" = m := by rw [hm]; rfl
      rw [hg] at h
      cases hroute : router.get_route m with
      | none =>
        simp only [hroute] at h
        exact absurd h (by simp)
      | some route =>
        obtain ⟨cid2, key2⟩ := route
        simp only [hroute] at h
        cases hconn : lookupA server.connectors cid2 with
        | none =>
          simp only [hconn] at h
          exact absurd h (by simp)
        | some reg =>
          simp only [hconn] at h
          injection h with h1 h2 h3
          subst h1
          subst h2
          refine ⟨rfl, rfl, ⟨_, rfl, rfl, rfl, rfl, rfl, m, rfl, hroute⟩⟩

/-- Witness for C7's amended theorem at the counterexample's concrete
request. -/
theorem C7_request_envelope_fields_witness :
    (create_request_message "req-1" "POST" "/v1/chat/completions"
      [("content-type", "application/json")] "" none).type = MessageType.REQUEST ∧
    (create_request_message "req-1" "POST" "/v1/chat/completions"
      [("content-type", "application/json")] "" none).id = "req-1" := by
  have h := C7_request_envelope_fields
    ⟨"POST", "/v1/chat/completions",
      [("content-type", "application/json"), ("x-custom", "1")],
      some "application/json", []⟩
    (BodyParse.parsed (some "m1") false) "req-1"
    ⟨[("m1", ⟨"c1", none⟩)], [("c1", ⟨"c1", ["m1"], none⟩)]⟩
    (ServerState.mk [("c1", ⟨"c1", ["m1"], none, []⟩)] [])
    "c1"
    (create_request_message "req-1" "POST" "/v1/chat/completions"
      [("content-type", "application/json")] "" none) false (by decide)
  exact ⟨h.1, h.2.1⟩

/-- C3: when a connector's socket closes with requests outstanding, every
still-waiting single-slot future in its `pending_requests` is completed with
the disconnect error and every streaming queue receives the end-of-stream
sentinel `None`; the registration (and with it every pending entry, including
the correlation id at issue) disappears from the server's map; and a
non-streaming request awaiting such a future gets the ConnectionError
translated to a 502 reply with code `connector_unavailable`. -/
theorem C3_disconnect_cleanup (st : ServerState) (cid : String)
    (reg : ConnectorRegistration) (hreg : lookupA st.connectors cid = some reg)
    (hnodup : (keysA st.connectors).Nodup) :
    (∀ k, lookupA reg.pending_requests k = some (.future .waiting) →
      lookupA (disconnectCleanup st cid).2 k =
        some (.future .failedDisconnect)) ∧
    (∀ k q, lookupA reg.pending_requests k = some (.queue q) →
      lookupA (disconnectCleanup st cid).2 k = some (.queue (q ++ [none]))) ∧
    lookupA (disconnectCleanup st cid).1.connectors cid = none ∧
    (∀ (message : RelayMessage) (events : List WaitEvent),
      ∃ st2,
        (send_request st cid message (WaitEvent.disconnect :: events)).1 =
          .disconnected st2 ∧
        handle_non_streaming_response
            ((send_request st cid message (WaitEvent.disconnect :: events)).1) =
          some (.errorReply 502 "Connector unavailable" "bad_gateway"
            (some "connector_unavailable")) ∧
        lookupA st2.connectors cid = none) := by
  have hclean : disconnectCleanup st cid =
      ({ connectors := eraseA st.connectors cid,
         pending_connections := eraseA st.pending_connections cid },
       reg.pending_requests.map fun kv => (kv.1, drainSlot kv.2)) := by
    unfold disconnectCleanup
    rw [hreg]
  refine ⟨?_, ?_, ?_, ?_⟩
  · intro k hk
    rw [hclean]
    simp only [lookupA_map_snd, hk]
    rfl
  · intro k q hk
    rw [hclean]
    simp only [lookupA_map_snd, hk]
    rfl
  · rw [hclean]
    exact lookupA_eraseA_self _ _ hnodup
  · intro message events
    set reg2 : ConnectorRegistration :=
      { reg with pending_requests :=
          insertA reg.pending_requests message.id (.future .waiting) } with hreg2
    have hsend : (send_request st cid message (WaitEvent.disconnect :: events)).1 =
        .disconnected (disconnectCleanup (setRegistration st cid reg2) cid).1 := by
      unfold send_request
      rw [hreg]
      rfl
    have hlook : lookupA (setRegistration st cid reg2).connectors cid = some reg2 :=
      lookupA_insertA_self _ _ _
    have hclean2 : (disconnectCleanup (setRegistration st cid reg2) cid).1 =
        { connectors := eraseA (setRegistration st cid reg2).connectors cid,
          pending_connections :=
            eraseA (setRegistration st cid reg2).pending_connections cid } := by
      unfold disconnectCleanup
      rw [hlook]
    refine ⟨_, hsend, by rw [hsend]; rfl, ?_⟩
    rw [hclean2]
    show lookupA (eraseA (insertA st.connectors cid reg2) cid) cid = none
    exact lookupA_eraseA_self _ _ (keysA_nodup_insertA _ _ _ hnodup)

/-- Witness for C3 on a concrete server holding one registration with one
waiting future and one streaming queue. -/
theorem C3_disconnect_cleanup_witness :
    lookupA
      (ServerState.mk
        [("c1", ⟨"c1", ["m1"], none,
          [("r1", PendingSlot.future .waiting),
           ("r2", PendingSlot.queue [])]⟩)] []).connectors "c1" =
      some ⟨"c1", ["m1"], none,
        [("r1", PendingSlot.future .waiting), ("r2", PendingSlot.queue [])]⟩ ∧
    lookupA
      (disconnectCleanup
        (ServerState.mk
          [("c1", ⟨"c1", ["m1"], none,
            [("r1", PendingSlot.future .waiting),
             ("r2", PendingSlot.queue [])]⟩)] []) "c1").2 "r1" =
      some (PendingSlot.future .failedDisconnect) ∧
    lookupA
      (disconnectCleanup
        (ServerState.mk
          [("c1", ⟨"c1", ["m1"], none,
            [("r1", PendingSlot.future .waiting),
             ("r2", PendingSlot.queue [])]⟩)] []) "c1").2 "r2" =
      some (PendingSlot.queue [none]) := by
  have h := C3_disconnect_cleanup
    (ServerState.mk
      [("c1", ⟨"c1", ["m1"], none,
        [("r1", PendingSlot.future .waiting),
         ("r2", PendingSlot.queue [])]⟩)] []) "c1"
    ⟨"c1", ["m1"], none,
      [("r1", PendingSlot.future .waiting), ("r2", PendingSlot.queue [])]⟩
    (by decide) (by decide)
  exact ⟨by decide, h.1 "r1" (by decide), h.2.1 "r2" [] (by decide)⟩

/-! ## Connector reconnection backoff
(src/remotellm/connector/tunnel_client.py, `_handle_reconnect`)

Delays are real numbers in the source; they are embedded as rationals.
`random.random()` is the explicit parameter `rand` with `0 ≤ rand < 1`.
`attempt` is the value of `_reconnect_attempt` after the increment, so the
first retry has `attempt = 1`.
-/

/-- Pre-jitter delay: `min(base * 2 ** min(attempt - 1, 10), max_delay)`. -/
def reconnectPreJitterDelay (base maxDelay : ℚ) (attempt : Nat) : ℚ :=
  min (base * 2 ^ min (attempt - 1) 10) maxDelay

/-- Slept delay: pre-jitter delay plus `delay * random.random() * 0.25`. -/
def reconnectDelay (base maxDelay : ℚ) (attempt : Nat) (rand : ℚ) : ℚ :=
  reconnectPreJitterDelay base maxDelay attempt +
    reconnectPreJitterDelay base maxDelay attempt * rand * (1 / 4)

/-- C9: for every reconnection attempt `n ≥ 1` with positive base and cap,
the slept delay is the pre-jitter delay `min(base * 2^min(n-1,10),
max_delay)` plus a jitter `j` with `0 ≤ j < 0.25 ·` that pre-jitter delay;
the pre-jitter delay is monotone non-decreasing in the attempt number; and
the total delay never exceeds `1.25 · max_delay`. -/
theorem C9_reconnect_backoff (base maxDelay rand : ℚ) (n : Nat)
    (hb : 0 < base) (hm : 0 < maxDelay) (hr0 : 0 ≤ rand) (hr1 : rand < 1)
    (_hn : 1 ≤ n) :
    (∃ j, reconnectDelay base maxDelay n rand =
        reconnectPreJitterDelay base maxDelay n + j ∧
      0 ≤ j ∧ j < (1 / 4) * reconnectPreJitterDelay base maxDelay n) ∧
    (∀ n2, n ≤ n2 →
      reconnectPreJitterDelay base maxDelay n ≤
        reconnectPreJitterDelay base maxDelay n2) ∧
    reconnectDelay base maxDelay n rand ≤ (5 / 4) * maxDelay := by
  have hpow : (0 : ℚ) < 2 ^ min (n - 1) 10 := by positivity
  have hpre_pos : 0 < reconnectPreJitterDelay base maxDelay n := by
    unfold reconnectPreJitterDelay
    exact lt_min (by positivity) hm
  have hpre_le : reconnectPreJitterDelay base maxDelay n ≤ maxDelay :=
    min_le_right _ _
  refine ⟨?_, ?_, ?_⟩
  · refine ⟨reconnectPreJitterDelay base maxDelay n * rand * (1 / 4), rfl, ?_, ?_⟩
    · positivity
    · nlinarith [hpre_pos, hr1, hr0]
  · intro n2 hn2
    unfold reconnectPreJitterDelay
    refine min_le_min ?_ le_rfl
    refine mul_le_mul_of_nonneg_left ?_ (le_of_lt hb)
    refine pow_le_pow_right₀ (by norm_num) ?_
    exact min_le_min (Nat.sub_le_sub_right hn2 1) le_rfl
  · unfold reconnectDelay
    nlinarith [hpre_pos, hpre_le, hr0, hr1, hm]

/-- Witness for C9 at `base = 1`, `max_delay = 300`, attempt 3, jitter draw
one half. -/
theorem C9_reconnect_backoff_witness :
    (0 : ℚ) < 1 ∧ (0 : ℚ) < 300 ∧ (0 : ℚ) ≤ 1 / 2 ∧ (1 / 2 : ℚ) < 1 ∧ 1 ≤ 3 ∧
    reconnectDelay 1 300 3 (1 / 2) ≤ (5 / 4) * 300 := by
  refine ⟨by norm_num, by norm_num, by norm_num, by norm_num, by norm_num, ?_⟩
  exact (C9_reconnect_backoff 1 300 (1 / 2) 3 (by norm_num) (by norm_num)
    (by norm_num) (by norm_num) (by norm_num)).2.2

end RemoteLLM

